import Mathlib

/-!
Verification of the TapForge `MinerGame` contract
(`src/contracts/contracts/MinerGame.sol`).

The contract is shallowly embedded: machine integers become `Nat`
(Solidity 0.8 checked arithmetic reverts on overflow, so a successful
execution computes the exact natural-number value; the contract's
`unchecked` increments are modelled with an explicit `% 2^256`),
reverting calls become `Except String` with the contract's `require`
messages, and each keccak256 use is an abstract function parameter.
Chain context (current block number, historical block digests, the
EVM `blockhash` window) is passed explicitly.
-/

namespace MinerGame

/-- `2^256`, the modulus of the contract's `unchecked` arithmetic. -/
def UINT256 : Nat := 2 ^ 256

/-- `type(uint128).max`, bound checked by `_calculateAndCachePower`. -/
def UINT128MAX : Nat := 2 ^ 128 - 1

/-- `2^16`, modulus of the `uint16` downcast in `revealTap`. -/
def UINT16 : Nat := 2 ^ 16

-- Constants of MinerGame.sol (lines 21-35).
def BASE_REWARD : Nat := 10 * 10 ^ 18
def MAX_TAPS_PER_CALL : Nat := 20
def MAX_TAPS_PER_BLOCK : Nat := 100
def PITY_THRESHOLD : Nat := 50
def PITY_INCREMENT : Nat := 2
def MAX_PITY_BONUS : Nat := 50
def CRITICAL_BASE_CHANCE : Nat := 10
def MAX_LEVEL : Nat := 100
def MAX_REGISTERED_MINERS : Nat := 50
def COMMIT_REVEAL_BLOCKS : Nat := 1
def MAX_REVEAL_DELAY : Nat := 256
def MAX_DAILY_MINT : Nat := 1000000 * 10 ^ 18

/-- Gem kinds (`enum GemType`). -/
inductive GemType
  | NONE
  | RUBY
  | SAPPHIRE
  | DIAMOND
deriving DecidableEq

/-- `struct GemReward` (bonus wei, drop chance in percent). -/
structure GemReward where
  bonus : Nat
  dropChance : Nat
deriving DecidableEq

/-- The gem table set up in the constructor (lines 107-109). -/
def defaultGemRewards : GemType → GemReward
  | .RUBY => ⟨100 * 10 ^ 18, 70⟩
  | .SAPPHIRE => ⟨500 * 10 ^ 18, 25⟩
  | .DIAMOND => ⟨2000 * 10 ^ 18, 5⟩
  | .NONE => ⟨0, 0⟩

/-- Initial value of `criticalMultipliers` (line 77). -/
def defaultMultipliers : List Nat := [2, 5, 10, 50]

/-- Initial value of `criticalWeights` (line 78). -/
def defaultWeights : List Nat := [60, 25, 10, 5]

/-- `struct PlayerData` (line 38). -/
structure PlayerData where
  level : Nat
  totalPower : Nat
  pendingRewards : Nat
  totalMined : Nat
  totalTaps : Nat
  criticalHits : Nat
  lastTapBlock : Nat
  tapsSinceCritical : Nat
  registeredMiners : List Nat
deriving DecidableEq

/-- A fresh mapping entry: every field Solidity-zero-initialised. -/
def defaultPlayer : PlayerData :=
  ⟨0, 0, 0, 0, 0, 0, 0, 0, []⟩

/-- `struct CommitData` (line 55). -/
structure CommitData where
  hash : Nat
  blockNumber : Nat
  taps : Nat
  revealed : Bool
deriving DecidableEq

/-- The slice of the `MinerNFT` collaborator that `MinerGame` reads:
`ownerOf` (with `none` for a nonexistent token, which makes `ownerOf`
revert and the `try`/`catch` in `_calculateAndCachePower` skip it)
and each token's `power`. -/
structure MinerNFTState where
  ownerOf : Nat → Option Nat
  power : Nat → Nat

/-- An NFT registry holding no tokens at all. -/
def emptyNFT : MinerNFTState :=
  ⟨fun _ => none, fun _ => 0⟩

/-- `_calculatePityBonus` (lines 426-435). -/
def calculatePityBonus (tapsSinceCritical : Nat) : Nat :=
  if tapsSinceCritical ≤ PITY_THRESHOLD then 0
  else
    let bonus := (tapsSinceCritical - PITY_THRESHOLD) * PITY_INCREMENT
    if bonus > MAX_PITY_BONUS then MAX_PITY_BONUS else bonus

/-- The cumulative-weight scan of `_selectMultiplier` (lines 441-447):
walks the two parallel arrays accumulating weights, returning the first
multiplier whose cumulative weight exceeds the draw. -/
def selectScan (mults weights : List Nat) (random cumulative : Nat) : Option Nat :=
  match mults, weights with
  | m :: ms, w :: ws =>
      if random < cumulative + w then some m else selectScan ms ws random (cumulative + w)
  | _, _ => none

/-- `_selectMultiplier` (lines 437-450): draw `seed % 100`, scan the
weight table, fall back to `criticalMultipliers[0]` if the scan
completes. -/
def selectMultiplier (mults weights : List Nat) (seed : Nat) : Nat :=
  (selectScan mults weights (seed % 100) 0).getD (mults.headD 0)

/-- `_selectGem` (lines 452-464). -/
def selectGem (g : GemType → GemReward) (seed : Nat) : GemType :=
  let random := seed % 100
  if random < (g .RUBY).dropChance then .RUBY
  else
    let random := random - (g .RUBY).dropChance
    if random < (g .SAPPHIRE).dropChance then .SAPPHIRE
    else
      let random := random - (g .SAPPHIRE).dropChance
      if random < (g .DIAMOND).dropChance then .DIAMOND
      else .NONE

/-- The sum over `registeredMiners` computed by the loop of
`_calculateAndCachePower` (lines 287-301): a token whose `ownerOf`
reverts (nonexistent) or that is no longer owned by the player is
skipped. -/
def assetPowerSum (nft : MinerNFTState) (playerAddress : Nat) (miners : List Nat) : Nat :=
  miners.foldl
    (fun acc tokenId =>
      match nft.ownerOf tokenId with
      | some owner => if owner = playerAddress then acc + nft.power tokenId else acc
      | none => acc)
    0

/-- `_calculateAndCachePower` (lines 282-310): sum owned registered
miners' power, multiply by `level + 1`, require the result to fit
`uint128`, cache it, and return it. -/
def calculateAndCachePower (nft : MinerNFTState) (playerAddress : Nat)
    (p : PlayerData) : Except String (PlayerData × Nat) :=
  let totalPower := assetPowerSum nft playerAddress p.registeredMiners
  let finalPower := totalPower * (p.level + 1)
  if finalPower ≤ UINT128MAX then
    .ok ({ p with totalPower := finalPower }, finalPower)
  else
    .error "Total power overflow"

/-- The loop-carried state of the `for` loop in `_executeTaps`
(lines 230-265). -/
structure LoopState where
  randomSeed : Nat
  totalReward : Nat
  criticalHits : Nat
  tapsSinceCritical : Nat
  hasCritical : Bool
deriving DecidableEq

/-- One iteration of the tap loop of `_executeTaps` (lines 230-265),
with `h2` standing for `keccak256(abi.encodePacked(randomSeed, i))`.
The two `unchecked` increments wrap modulo `2^256`. -/
def tapStep (h2 : Nat → Nat → Nat) (g : GemType → GemReward)
    (mults weights : List Nat) (baseTapReward : Nat) (i : Nat)
    (s : LoopState) : LoopState :=
  let seed := h2 s.randomSeed i
  let critChance := CRITICAL_BASE_CHANCE + calculatePityBonus s.tapsSinceCritical
  if seed % 100 < critChance then
    let multiplier := selectMultiplier mults weights seed
    let tapReward := baseTapReward * multiplier
    let tapReward :=
      if seed % 100 < 5 then
        let gem := selectGem g (seed >>> 8)
        if gem ≠ .NONE then tapReward + (g gem).bonus else tapReward
      else tapReward
    { randomSeed := seed
      totalReward := s.totalReward + tapReward
      criticalHits := (s.criticalHits + 1) % UINT256
      tapsSinceCritical := 0
      hasCritical := true }
  else
    { randomSeed := seed
      totalReward := s.totalReward + baseTapReward
      criticalHits := s.criticalHits
      tapsSinceCritical := (s.tapsSinceCritical + 1) % UINT256
      hasCritical := s.hasCritical }

/-- The tap loop of `_executeTaps` run for `i = 0, …, taps-1`,
written with the last iteration peeled off. -/
def runTaps (h2 : Nat → Nat → Nat) (g : GemType → GemReward)
    (mults weights : List Nat) (baseTapReward : Nat) :
    Nat → LoopState → LoopState
  | 0, s => s
  | n + 1, s =>
      tapStep h2 g mults weights baseTapReward n
        (runTaps h2 g mults weights baseTapReward n s)

/-- `_executeTaps` (lines 203-277). Inputs: the abstract per-tap hash
`h2`, the gem table `g`, the critical tables, the NFT registry, the
caller, the current block number, the tap count, the entry seed, the
commit-reveal flag, the caller's `PlayerData` and the caller's
`blockTaps[·][block.number]` counter. Returns the updated player data,
the updated per-block tap counter and `totalReward`; any `require`
failure reverts the whole call. -/
def executeTaps (h2 : Nat → Nat → Nat) (g : GemType → GemReward)
    (mults weights : List Nat) (nft : MinerNFTState)
    (sender currentBlock : Nat) (taps : Nat) (randomSeed : Nat)
    (isCommitReveal : Bool) (player : PlayerData) (blockTapsCur : Nat) :
    Except String (PlayerData × Nat × Nat) :=
  if blockTapsCur + taps > MAX_TAPS_PER_BLOCK then
    .error "Block limit exceeded"
  else
    match calculateAndCachePower nft sender player with
    | .error e => .error e
    | .ok (player, totalPower) =>
      let baseTapReward := BASE_REWARD * (totalPower + 1)
      let baseTapReward :=
        if isCommitReveal then (baseTapReward * 110) / 100 else baseTapReward
      let r := runTaps h2 g mults weights baseTapReward taps
          { randomSeed := randomSeed
            totalReward := 0
            criticalHits := player.criticalHits
            tapsSinceCritical := player.tapsSinceCritical
            hasCritical := false }
      .ok
        ({ player with
            pendingRewards := player.pendingRewards + r.totalReward
            totalTaps := (player.totalTaps + taps) % UINT256
            lastTapBlock := currentBlock
            criticalHits := r.criticalHits
            tapsSinceCritical := r.tapsSinceCritical },
          blockTapsCur + taps, r.totalReward)

/-- The EVM `blockhash` rule: the digest of block `n` is available only
for the 256 blocks strictly preceding the current one; outside that
window the opcode yields zero. `digest` is the chain's true digest
function. -/
def blockhashAt (digest : Nat → Nat) (currentBlock n : Nat) : Nat :=
  if n < currentBlock ∧ currentBlock ≤ n + 256 then digest n else 0

/-- `commitTap` (lines 121-135). The stored block number carries the
`uint128` downcast of `block.number`. -/
def commitTap (paused : Bool) (commitment taps currentBlock : Nat)
    (c : CommitData) : Except String CommitData :=
  if paused then .error "EnforcedPause"
  else if ¬(taps > 0 ∧ taps ≤ MAX_TAPS_PER_CALL) then .error "Invalid tap count"
  else if ¬(c.blockNumber = 0 ∨ c.revealed) then .error "Pending commitment"
  else
    .ok
      { hash := commitment
        blockNumber := currentBlock % 2 ^ 128
        taps := taps
        revealed := false }

/-- `revealTap` (lines 142-180). `Hc` stands for the commitment hash
`keccak256(abi.encodePacked(msg.sender, secret, nonce, commit.taps))`,
`Hs` for the seed hash
`keccak256(abi.encodePacked(blockHash, secret, nonce, msg.sender))`.
Returns the updated commitment, player data, per-block tap counter
and the reward. -/
def revealTap (Hc : Nat → Nat → Nat → Nat → Nat)
    (Hs : Nat → Nat → Nat → Nat → Nat) (h2 : Nat → Nat → Nat)
    (g : GemType → GemReward) (mults weights : List Nat)
    (nft : MinerNFTState) (digest : Nat → Nat) (paused : Bool)
    (sender currentBlock secret nonce : Nat) (c : CommitData)
    (player : PlayerData) (blockTapsCur : Nat) :
    Except String (CommitData × PlayerData × Nat × Nat) :=
  if paused then .error "EnforcedPause"
  else if ¬(c.blockNumber > 0) then .error "No commitment"
  else if c.revealed then .error "Already revealed"
  else if ¬(currentBlock ≥ c.blockNumber + COMMIT_REVEAL_BLOCKS) then .error "Too early"
  else
    let blockHash := blockhashAt digest currentBlock (c.blockNumber + COMMIT_REVEAL_BLOCKS)
    if blockHash = 0 then .error "Block hash not available"
    else if ¬(currentBlock ≤ c.blockNumber + MAX_REVEAL_DELAY) then .error "Too late"
    else if ¬(Hc sender secret nonce c.taps = c.hash) then .error "Invalid reveal"
    else
      let c' := { c with revealed := true }
      let randomSeed := Hs blockHash secret nonce sender
      match executeTaps h2 g mults weights nft sender currentBlock (c.taps % UINT16)
          randomSeed true player blockTapsCur with
      | .error e => .error e
      | .ok (p', bt', reward) => .ok (c', p', bt', reward)

/-- `tapMine` (lines 186-198); `randomSeed` is the value of the
block-context keccak derivation of lines 190-195. -/
def tapMine (h2 : Nat → Nat → Nat) (g : GemType → GemReward)
    (mults weights : List Nat) (nft : MinerNFTState) (paused : Bool)
    (sender currentBlock taps randomSeed : Nat) (player : PlayerData)
    (blockTapsCur : Nat) : Except String (PlayerData × Nat × Nat) :=
  if paused then .error "EnforcedPause"
  else if ¬(taps > 0 ∧ taps ≤ MAX_TAPS_PER_CALL) then .error "Invalid tap count"
  else executeTaps h2 g mults weights nft sender currentBlock taps randomSeed false
    player blockTapsCur

/-- The circuit-breaker slice of contract storage (lines 72-74). -/
structure BreakerState where
  currentDay : Nat
  todaysMinted : Nat
  dailyMintLimit : Nat
deriving DecidableEq

/-- `withdraw` (lines 317-336); `timestamp` is `block.timestamp` and
`1 days = 86400` seconds. Returns the updated breaker state, the
updated player data, and the minted amount. The external
`minerToken.mint` call is out of scope and modelled as succeeding. -/
def withdraw (timestamp : Nat) (b : BreakerState) (p : PlayerData) :
    Except String (BreakerState × PlayerData × Nat) :=
  let amount := p.pendingRewards
  if ¬(amount > 0) then .error "No pending rewards"
  else
    let today := timestamp / 86400
    let b :=
      if today ≠ b.currentDay then
        { b with currentDay := today, todaysMinted := 0 }
      else b
    if ¬(b.todaysMinted + amount ≤ b.dailyMintLimit) then .error "Daily limit exceeded"
    else
      .ok
        ({ b with todaysMinted := b.todaysMinted + amount },
          { p with pendingRewards := 0, totalMined := p.totalMined + amount },
          amount)

/-- `registerMiner` (lines 341-356). `ownerOf` on a nonexistent token
reverts inside the ERC721 collaborator. The duplicate scan of
lines 348-352 requires every stored id to differ from `tokenId`. -/
def registerMiner (nft : MinerNFTState) (sender tokenId : Nat)
    (p : PlayerData) : Except String PlayerData :=
  match nft.ownerOf tokenId with
  | none => .error "ERC721NonexistentToken"
  | some owner =>
    if ¬(owner = sender) then .error "Not the owner"
    else if ¬(p.registeredMiners.length < MAX_REGISTERED_MINERS) then
      .error "Max miners reached"
    else if tokenId ∈ p.registeredMiners then .error "Already registered"
    else .ok { p with registeredMiners := p.registeredMiners ++ [tokenId] }

/-- `unregisterMiner` (lines 361-375): find the first index holding
`tokenId`, overwrite it with `registeredMiners[length - 1]`, then
`pop`. Inside the success branch the list is nonempty, so the `getD`
default is never read. -/
def unregisterMiner (tokenId : Nat) (p : PlayerData) :
    Except String PlayerData :=
  let l := p.registeredMiners
  if tokenId ∈ l then
    let i := l.indexOf tokenId
    let last := l.getD (l.length - 1) 0
    .ok { p with registeredMiners := (l.set i last).dropLast }
  else .error "Miner not registered"

/-- `updateCriticalWeights` (lines 500-509), an owner-authorized call.
The contract writes the array elementwise while summing and only then
requires the total to be 100; a failed total check reverts those
writes, so the net effect is all-or-nothing. -/
def updateCriticalWeights (weights : List Nat) :
    Except String (List Nat) :=
  if ¬(weights.length = 4) then .error "Invalid weights length"
  else if ¬(weights.sum = 100) then .error "Weights must sum to 100"
  else .ok weights

-- Transaction wrappers making the EVM's revert-on-failure semantics
-- explicit: a reverted call leaves storage exactly as it was.

/-- Storage after a `_executeTaps` transaction: the new
(player, per-block counter) on success, the old pair on revert. -/
def tapTransaction (h2 : Nat → Nat → Nat) (g : GemType → GemReward)
    (mults weights : List Nat) (nft : MinerNFTState)
    (sender currentBlock taps randomSeed : Nat) (isCommitReveal : Bool)
    (player : PlayerData) (blockTapsCur : Nat) : PlayerData × Nat :=
  match executeTaps h2 g mults weights nft sender currentBlock taps randomSeed
      isCommitReveal player blockTapsCur with
  | .ok (p', bt', _) => (p', bt')
  | .error _ => (player, blockTapsCur)

/-- Storage after a `withdraw` transaction. -/
def withdrawTransaction (timestamp : Nat) (b : BreakerState)
    (p : PlayerData) : BreakerState × PlayerData :=
  match withdraw timestamp b p with
  | .ok (b', p', _) => (b', p')
  | .error _ => (b, p)

/-- Stored `criticalWeights` after an `updateCriticalWeights`
transaction. -/
def weightsTransaction (old weights : List Nat) : List Nat :=
  match updateCriticalWeights weights with
  | .ok w => w
  | .error _ => old

-- Result projections used to state theorems without existentials.

/-- Whether an `Except` computation succeeded. -/
def exOk {α : Type} (e : Except String α) : Bool :=
  match e with
  | .ok _ => true
  | .error _ => false

/-- The `totalReward` of a successful `_executeTaps` run (0 on revert). -/
def okReward (e : Except String (PlayerData × Nat × Nat)) : Nat :=
  match e with
  | .ok (_, _, r) => r
  | .error _ => 0

/-- The player data of a successful `_executeTaps` run. -/
def okPlayer (e : Except String (PlayerData × Nat × Nat)) (old : PlayerData) :
    PlayerData :=
  match e with
  | .ok (p, _, _) => p
  | .error _ => old

/-- The commitment stored by a successful `revealTap` run. -/
def okCommit (e : Except String (CommitData × PlayerData × Nat × Nat))
    (old : CommitData) : CommitData :=
  match e with
  | .ok (c, _, _, _) => c
  | .error _ => old

/-- The player data stored by a successful `withdraw` run. -/
def okWithdrawPlayer (e : Except String (BreakerState × PlayerData × Nat))
    (old : PlayerData) : PlayerData :=
  match e with
  | .ok (_, p, _) => p
  | .error _ => old

/-- The amount minted by a successful `withdraw` run (0 on revert). -/
def okWithdrawAmount (e : Except String (BreakerState × PlayerData × Nat)) : Nat :=
  match e with
  | .ok (_, _, a) => a
  | .error _ => 0

/-- A one-token registry: token 42 exists, is owned by address 1 and
has power 3. Used to instantiate theorems at concrete inputs. -/
def witnessNFT : MinerNFTState :=
  ⟨fun t => if t = 42 then some 1 else none, fun _ => 3⟩

/-- C8: for every `n` the pity bonus is 0 when `n ≤ PITY_THRESHOLD` and
`min ((n - PITY_THRESHOLD) * PITY_INCREMENT) MAX_PITY_BONUS` beyond the
threshold; in particular it is 0 at 50, 2 at 51, and exactly
`MAX_PITY_BONUS = 50` for every `n ≥ 75`. -/
theorem claim_pity_bonus :
    (∀ n, calculatePityBonus n =
      if n ≤ PITY_THRESHOLD then 0
      else min ((n - PITY_THRESHOLD) * PITY_INCREMENT) MAX_PITY_BONUS) ∧
    calculatePityBonus 50 = 0 ∧
    calculatePityBonus 51 = 2 ∧
    (∀ m, calculatePityBonus (75 + m) = MAX_PITY_BONUS) := by
  refine ⟨fun n => ?_, by decide, by decide, fun m => ?_⟩
  · simp only [calculatePityBonus, PITY_THRESHOLD, PITY_INCREMENT, MAX_PITY_BONUS]
    split_ifs <;> omega
  · simp only [calculatePityBonus, PITY_THRESHOLD, PITY_INCREMENT, MAX_PITY_BONUS]
    split_ifs <;> omega

/-- C9: `updateCriticalWeights` accepts a weights array iff it has
length 4 and sums to exactly 100, and a rejected update leaves the
stored weights unchanged. -/
theorem claim_update_critical_weights (old ws : List Nat) :
    (exOk (updateCriticalWeights ws) = true ↔ ws.length = 4 ∧ ws.sum = 100) ∧
    weightsTransaction old ws =
      if ws.length = 4 ∧ ws.sum = 100 then ws else old := by
  constructor
  · simp only [updateCriticalWeights, exOk]
    split_ifs <;> simp_all
  · simp only [weightsTransaction, updateCriticalWeights]
    split_ifs <;> simp_all

/-- C9 witness: the constructor weights are accepted; the short array
[1, 2, 3] is rejected and leaves the stored weights unchanged. -/
theorem claim_update_critical_weights_witness :
    (exOk (updateCriticalWeights [60, 25, 10, 5]) = true ↔
      ([60, 25, 10, 5] : List Nat).length = 4 ∧
        ([60, 25, 10, 5] : List Nat).sum = 100) ∧
    weightsTransaction [60, 25, 10, 5] [1, 2, 3] =
      if ([1, 2, 3] : List Nat).length = 4 ∧ ([1, 2, 3] : List Nat).sum = 100 then
        [1, 2, 3]
      else [60, 25, 10, 5] :=
  ⟨(claim_update_critical_weights [60, 25, 10, 5] [60, 25, 10, 5]).1,
    (claim_update_critical_weights [60, 25, 10, 5] [1, 2, 3]).2⟩

/-- C4: a tap execution (on either path, here: for either value of
`isCommitReveal`) whose requested taps would push the caller's
per-block counter over `MAX_TAPS_PER_BLOCK` reverts with the
block-limit error, leaving player data and the per-block counter
unchanged. -/
theorem claim_block_limit_atomic (h2 : Nat → Nat → Nat) (g : GemType → GemReward)
    (mults weights : List Nat) (nft : MinerNFTState)
    (sender currentBlock taps randomSeed : Nat) (isCommitReveal : Bool)
    (player : PlayerData) (blockTapsCur : Nat)
    (hlim : MAX_TAPS_PER_BLOCK < blockTapsCur + taps) :
    executeTaps h2 g mults weights nft sender currentBlock taps randomSeed
      isCommitReveal player blockTapsCur = .error "Block limit exceeded" ∧
    tapTransaction h2 g mults weights nft sender currentBlock taps randomSeed
      isCommitReveal player blockTapsCur = (player, blockTapsCur) := by
  have h : executeTaps h2 g mults weights nft sender currentBlock taps randomSeed
      isCommitReveal player blockTapsCur = .error "Block limit exceeded" := by
    simp only [executeTaps]
    rw [if_pos hlim]
  refine ⟨h, ?_⟩
  simp only [tapTransaction]
  rw [h]

/-- C4 witness: with 95 taps already counted this block, a batch of 10
more reverts with the block-limit error and changes nothing. -/
theorem claim_block_limit_atomic_witness :
    executeTaps (fun _ _ => 0) defaultGemRewards defaultMultipliers defaultWeights
      emptyNFT 1 5 10 0 false defaultPlayer 95 = .error "Block limit exceeded" ∧
    tapTransaction (fun _ _ => 0) defaultGemRewards defaultMultipliers defaultWeights
      emptyNFT 1 5 10 0 false defaultPlayer 95 = (defaultPlayer, 95) :=
  claim_block_limit_atomic _ _ _ _ _ 1 5 10 0 false defaultPlayer 95 (by decide)

/-- Evaluation of `withdraw` as a case split on the guard conditions. -/
theorem withdraw_eq (t : Nat) (b : BreakerState) (p : PlayerData) :
    withdraw t b p =
      if p.pendingRewards = 0 then .error "No pending rewards"
      else if b.dailyMintLimit <
          (if t / 86400 ≠ b.currentDay then 0 else b.todaysMinted) +
            p.pendingRewards then .error "Daily limit exceeded"
      else
        .ok
          (⟨if t / 86400 ≠ b.currentDay then t / 86400 else b.currentDay,
            (if t / 86400 ≠ b.currentDay then 0 else b.todaysMinted) +
              p.pendingRewards,
            b.dailyMintLimit⟩,
            ⟨p.level, p.totalPower, 0, p.totalMined + p.pendingRewards,
              p.totalTaps, p.criticalHits, p.lastTapBlock, p.tapsSinceCritical,
              p.registeredMiners⟩,
            p.pendingRewards) := by
  simp only [withdraw]
  split_ifs <;> simp_all <;> omega

/-- C5: `withdraw` reverts when `pendingRewards = 0` and when, after the
day-rollover reset, `todaysMinted` plus the amount would exceed
`dailyMintLimit`; on success it zeroes `pendingRewards`, adds the
amount to `totalMined`, and an immediately repeated withdrawal reverts;
any revert leaves the state unchanged. -/
theorem claim_withdraw (t : Nat) (b : BreakerState) (p : PlayerData) :
    (p.pendingRewards = 0 → withdraw t b p = .error "No pending rewards" ∧
      withdrawTransaction t b p = (b, p)) ∧
    (0 < p.pendingRewards →
      b.dailyMintLimit <
        (if t / 86400 ≠ b.currentDay then 0 else b.todaysMinted) + p.pendingRewards →
      withdraw t b p = .error "Daily limit exceeded" ∧
      withdrawTransaction t b p = (b, p)) ∧
    (0 < p.pendingRewards →
      (if t / 86400 ≠ b.currentDay then 0 else b.todaysMinted) + p.pendingRewards ≤
        b.dailyMintLimit →
      exOk (withdraw t b p) = true ∧
      (okWithdrawPlayer (withdraw t b p) p).pendingRewards = 0 ∧
      (okWithdrawPlayer (withdraw t b p) p).totalMined =
        p.totalMined + p.pendingRewards ∧
      okWithdrawAmount (withdraw t b p) = p.pendingRewards ∧
      ∀ t2 b2, withdraw t2 b2 (okWithdrawPlayer (withdraw t b p) p) =
        .error "No pending rewards") := by
  refine ⟨fun h0 => ?_, fun hpos hover => ?_, fun hpos hfit => ?_⟩
  · have h : withdraw t b p = .error "No pending rewards" := by
      rw [withdraw_eq, if_pos h0]
    exact ⟨h, by simp only [withdrawTransaction]; rw [h]⟩
  · have h : withdraw t b p = .error "Daily limit exceeded" := by
      rw [withdraw_eq, if_neg (by omega), if_pos hover]
    exact ⟨h, by simp only [withdrawTransaction]; rw [h]⟩
  · have h := withdraw_eq t b p
    rw [if_neg (by omega), if_neg (by omega)] at h
    rw [h]
    refine ⟨rfl, rfl, rfl, rfl, fun t2 b2 => ?_⟩
    simp only [okWithdrawPlayer]
    rw [withdraw_eq]
    rfl

/-- C5 witness: with 5 wei pending and an empty breaker the
withdrawal succeeds, zeroes the pending balance, credits `totalMined`,
and a repeat reverts; a zero-pending withdrawal reverts; a
one-wei daily limit makes it revert with the daily-limit error. -/
theorem claim_withdraw_witness :
    (withdraw 0 ⟨0, 0, MAX_DAILY_MINT⟩ defaultPlayer = .error "No pending rewards") ∧
    (withdraw 0 ⟨0, 0, 1⟩ { defaultPlayer with pendingRewards := 5 } =
      .error "Daily limit exceeded") ∧
    exOk (withdraw 0 ⟨0, 0, MAX_DAILY_MINT⟩
      { defaultPlayer with pendingRewards := 5 }) = true ∧
    (okWithdrawPlayer (withdraw 0 ⟨0, 0, MAX_DAILY_MINT⟩
      { defaultPlayer with pendingRewards := 5 })
      { defaultPlayer with pendingRewards := 5 }).pendingRewards = 0 ∧
    (okWithdrawPlayer (withdraw 0 ⟨0, 0, MAX_DAILY_MINT⟩
      { defaultPlayer with pendingRewards := 5 })
      { defaultPlayer with pendingRewards := 5 }).totalMined = 5 ∧
    withdraw 7 ⟨9, 9, 9⟩ (okWithdrawPlayer (withdraw 0 ⟨0, 0, MAX_DAILY_MINT⟩
      { defaultPlayer with pendingRewards := 5 })
      { defaultPlayer with pendingRewards := 5 }) = .error "No pending rewards" := by
  refine ⟨(claim_withdraw 0 ⟨0, 0, MAX_DAILY_MINT⟩ defaultPlayer).1 rfl |>.1,
    ((claim_withdraw 0 ⟨0, 0, 1⟩ { defaultPlayer with pendingRewards := 5 }).2.1
      (by decide) (by decide)).1, ?_, ?_, ?_, ?_⟩
  · exact ((claim_withdraw 0 ⟨0, 0, MAX_DAILY_MINT⟩
      { defaultPlayer with pendingRewards := 5 }).2.2 (by decide) (by decide)).1
  · exact ((claim_withdraw 0 ⟨0, 0, MAX_DAILY_MINT⟩
      { defaultPlayer with pendingRewards := 5 }).2.2 (by decide) (by decide)).2.1
  · exact ((claim_withdraw 0 ⟨0, 0, MAX_DAILY_MINT⟩
      { defaultPlayer with pendingRewards := 5 }).2.2 (by decide) (by decide)).2.2.1
  · exact ((claim_withdraw 0 ⟨0, 0, MAX_DAILY_MINT⟩
      { defaultPlayer with pendingRewards := 5 }).2.2 (by decide) (by decide)).2.2.2.2 7 ⟨9, 9, 9⟩

/-- C6: a player can hold at most one pending commitment: with a valid
tap count, `commitTap` succeeds exactly when no prior commitment exists
(`blockNumber = 0`) or the prior one was revealed, reverting with the
pending-commitment error otherwise; and `revealTap` on an
already-revealed commitment reverts with the already-revealed error. -/
theorem claim_single_pending_commitment (Hc Hs : Nat → Nat → Nat → Nat → Nat)
    (h2 : Nat → Nat → Nat) (g : GemType → GemReward) (mults weights : List Nat)
    (nft : MinerNFTState) (digest : Nat → Nat)
    (sender currentBlock secret nonce commitment taps : Nat) (c : CommitData)
    (player : PlayerData) (blockTapsCur : Nat)
    (htaps : 0 < taps ∧ taps ≤ MAX_TAPS_PER_CALL) :
    (exOk (commitTap false commitment taps currentBlock c) = true ↔
      (c.blockNumber = 0 ∨ c.revealed = true)) ∧
    (c.blockNumber ≠ 0 → c.revealed = false →
      commitTap false commitment taps currentBlock c = .error "Pending commitment") ∧
    (0 < c.blockNumber → c.revealed = true →
      revealTap Hc Hs h2 g mults weights nft digest false sender currentBlock
        secret nonce c player blockTapsCur = .error "Already revealed") := by
  refine ⟨?_, fun hbn hrev => ?_, fun hbn hrev => ?_⟩
  · simp only [commitTap, exOk, Bool.false_eq_true, if_false,
      if_neg (not_not_intro htaps)]
    split_ifs with h
    · simp_all
    · simp_all
  · simp only [commitTap, Bool.false_eq_true, if_false,
      if_neg (not_not_intro htaps)]
    rw [if_pos]
    simp [hbn, hrev]
  · simp only [revealTap, Bool.false_eq_true, if_false]
    rw [if_neg (by omega), if_pos hrev]

/-- C6 witness: with an unrevealed commitment a second commit reverts;
with a fresh or revealed slot it succeeds; revealing a revealed
commitment reverts. -/
theorem claim_single_pending_commitment_witness :
    commitTap false 77 10 200 ⟨77, 100, 10, false⟩ = .error "Pending commitment" ∧
    exOk (commitTap false 77 10 200 ⟨0, 0, 0, false⟩) = true ∧
    exOk (commitTap false 77 10 200 ⟨77, 100, 10, true⟩) = true ∧
    revealTap (fun _ _ _ _ => 77) (fun _ _ _ _ => 3) (fun _ _ => 3)
      defaultGemRewards defaultMultipliers defaultWeights emptyNFT
      (fun n => n + 1) false 1 102 5 6 ⟨77, 100, 10, true⟩ defaultPlayer 0 =
      .error "Already revealed" := by
  refine ⟨?_, ?_, ?_, ?_⟩
  · exact (claim_single_pending_commitment (fun _ _ _ _ => 77) (fun _ _ _ _ => 3)
      (fun _ _ => 3) defaultGemRewards defaultMultipliers defaultWeights emptyNFT
      (fun n => n + 1) 1 200 5 6 77 10 ⟨77, 100, 10, false⟩ defaultPlayer 0
      (by decide)).2.1 (by decide) rfl
  · exact (claim_single_pending_commitment (fun _ _ _ _ => 77) (fun _ _ _ _ => 3)
      (fun _ _ => 3) defaultGemRewards defaultMultipliers defaultWeights emptyNFT
      (fun n => n + 1) 1 200 5 6 77 10 ⟨0, 0, 0, false⟩ defaultPlayer 0
      (by decide)).1.mpr (Or.inl rfl)
  · exact (claim_single_pending_commitment (fun _ _ _ _ => 77) (fun _ _ _ _ => 3)
      (fun _ _ => 3) defaultGemRewards defaultMultipliers defaultWeights emptyNFT
      (fun n => n + 1) 1 200 5 6 77 10 ⟨77, 100, 10, true⟩ defaultPlayer 0
      (by decide)).1.mpr (Or.inr rfl)
  · exact (claim_single_pending_commitment (fun _ _ _ _ => 77) (fun _ _ _ _ => 3)
      (fun _ _ => 3) defaultGemRewards defaultMultipliers defaultWeights emptyNFT
      (fun n => n + 1) 1 102 5 6 77 10 ⟨77, 100, 10, true⟩ defaultPlayer 0
      (by decide)).2.2 (by decide) rfl

/-- Swap-with-last-and-pop (the removal scheme of `unregisterMiner`)
maps a duplicate-free list to a duplicate-free list one shorter. -/
theorem swapRemove_nodup (l : List Nat) (i : Nat) (hi : i < l.length)
    (hnd : l.Nodup) :
    ((l.set i (l.getD (l.length - 1) 0)).dropLast).Nodup ∧
    ((l.set i (l.getD (l.length - 1) 0)).dropLast).length = l.length - 1 := by
  refine ⟨?_, by simp [List.length_dropLast, List.length_set]⟩
  have hne : l ≠ [] := List.ne_nil_of_length_pos (by omega)
  have hlen1 : l.length - 1 < l.length := by omega
  have hy : l.getD (l.length - 1) 0 = l.getLast hne := by
    rw [List.getD_eq_getElem l 0 hlen1, List.getLast_eq_getElem l hne]
  rw [hy, List.set_eq_take_cons_drop _ hi]
  by_cases hd : l.drop (i + 1) = []
  · rw [hd, List.dropLast_append_of_ne_nil _ (by simp), List.dropLast_single,
      List.append_nil]
    exact hnd.sublist (List.take_sublist i l)
  · rw [List.dropLast_append_of_ne_nil _ (by simp)]
    have hcons : (l.getLast hne :: l.drop (i + 1)).dropLast =
        l.getLast hne :: (l.drop (i + 1)).dropLast := by
      rw [show l.getLast hne :: l.drop (i + 1) = [l.getLast hne] ++ l.drop (i + 1)
          from rfl,
        List.dropLast_append_of_ne_nil _ hd]
      rfl
    rw [hcons]
    have hperm : List.Perm
        (l.take i ++ l.getLast hne :: (l.drop (i + 1)).dropLast)
        (l.take i ++ ((l.drop (i + 1)).dropLast ++ [l.getLast hne])) :=
      ((List.perm_append_singleton (l.getLast hne)
        ((l.drop (i + 1)).dropLast)).symm).append_left (l.take i)
    rw [hperm.nodup_iff]
    have hdeq : (l.drop (i + 1)).dropLast ++ [l.getLast hne] = l.drop (i + 1) := by
      rw [show l.getLast hne = (l.drop (i + 1)).getLast hd from
          (List.getLast_drop hd).symm]
      exact List.dropLast_append_getLast hd
    rw [hdeq]
    have hsub : List.Sublist (l.take i ++ l.drop (i + 1)) l := by
      conv_rhs => rw [← List.take_append_drop i l, List.drop_eq_getElem_cons hi]
      exact (List.sublist_cons_self _ _).append_left _
    exact hnd.sublist hsub

/-- C7: `registerMiner` succeeds exactly when the caller owns the
asset, the `MAX_REGISTERED_MINERS` cap is not reached, and the asset is
not already registered; successful registration and unregistration
preserve the no-duplicates and length-cap invariant of
`registeredMiners`, and the other player-state mutators (`_executeTaps`
and `withdraw`) do not touch the list at all. -/
theorem claim_registered_miners_invariant (nft : MinerNFTState)
    (sender tokenId : Nat) (p p' : PlayerData) :
    (exOk (registerMiner nft sender tokenId p) = true ↔
      (nft.ownerOf tokenId = some sender ∧
        p.registeredMiners.length < MAX_REGISTERED_MINERS ∧
        tokenId ∉ p.registeredMiners)) ∧
    (p.registeredMiners.Nodup → registerMiner nft sender tokenId p = .ok p' →
      p'.registeredMiners.Nodup ∧
      p'.registeredMiners.length ≤ MAX_REGISTERED_MINERS) ∧
    (p.registeredMiners.Nodup →
      p.registeredMiners.length ≤ MAX_REGISTERED_MINERS →
      unregisterMiner tokenId p = .ok p' →
      p'.registeredMiners.Nodup ∧
      p'.registeredMiners.length ≤ MAX_REGISTERED_MINERS) ∧
    (∀ h2 g mults weights currentBlock taps randomSeed isCR btc q bt r,
      executeTaps h2 g mults weights nft sender currentBlock taps randomSeed
        isCR p btc = .ok (q, bt, r) →
      q.registeredMiners = p.registeredMiners) ∧
    (∀ t b b2 q a, withdraw t b p = .ok (b2, q, a) →
      q.registeredMiners = p.registeredMiners) := by
  refine ⟨?_, fun hnd hok => ?_, fun hnd hlen hok => ?_, ?_, ?_⟩
  · simp only [registerMiner, exOk, ite_not]
    cases howner : nft.ownerOf tokenId with
    | none => simp
    | some o =>
      by_cases ho : o = sender <;> split_ifs with h1 h2 <;> simp_all
  · cases howner : nft.ownerOf tokenId with
    | none => simp only [registerMiner, howner, ite_not] at hok; cases hok
    | some o =>
      simp only [registerMiner, howner, ite_not] at hok
      by_cases ho : o = sender
      · rw [if_pos ho] at hok
        split_ifs at hok with h2 h3
        all_goals cases hok
        constructor
        · simp [List.nodup_append, hnd, h3]
        · simp only [List.length_append, List.length_singleton]
          omega
      · rw [if_neg ho] at hok
        cases hok
  · simp only [unregisterMiner] at hok
    split_ifs at hok with hmem
    all_goals cases hok
    have hi : p.registeredMiners.indexOf tokenId < p.registeredMiners.length :=
      List.indexOf_lt_length.mpr hmem
    obtain ⟨h1, h2⟩ := swapRemove_nodup p.registeredMiners _ hi hnd
    exact ⟨h1, by simp only [h2]; omega⟩
  · intro h2 g mults weights currentBlock taps randomSeed isCR btc q bt r hok
    simp only [executeTaps, calculateAndCachePower] at hok
    split_ifs at hok <;>
      simp only [Except.ok.injEq, Prod.mk.injEq, reduceCtorEq] at hok <;>
      obtain ⟨hq, -, -⟩ := hok <;> rw [← hq]
  · intro t b b2 q a hok
    rw [withdraw_eq] at hok
    split_ifs at hok <;>
      simp only [Except.ok.injEq, Prod.mk.injEq, reduceCtorEq] at hok <;>
      obtain ⟨-, hq, -⟩ := hok <;> rw [← hq]

/-- The scan over the constructor's critical tables always yields one
of the four stored multipliers; in particular it lies in [1, 50]. -/
theorem selectMultiplier_default_bounds (s : Nat) :
    1 ≤ selectMultiplier defaultMultipliers defaultWeights s ∧
    selectMultiplier defaultMultipliers defaultWeights s ≤ 50 := by
  simp only [selectMultiplier, defaultMultipliers, defaultWeights, selectScan]
  split_ifs <;> simp

/-- The constructor's gem table pays at most the diamond bonus. -/
theorem defaultGem_bonus_le (gt : GemType) :
    (defaultGemRewards gt).bonus ≤ 2000 * 10 ^ 18 := by
  cases gt <;> norm_num [defaultGemRewards]

/-- One tap adds at least the base reward and at most fifty times the
base reward plus the largest gem bonus (constructor tables). -/
theorem tapStep_bounds (h2 : Nat → Nat → Nat) (base i : Nat) (s : LoopState) :
    s.totalReward + base ≤
      (tapStep h2 defaultGemRewards defaultMultipliers defaultWeights base i s).totalReward ∧
    (tapStep h2 defaultGemRewards defaultMultipliers defaultWeights base i s).totalReward ≤
      s.totalReward + (base * 50 + 2000 * 10 ^ 18) := by
  have hm := selectMultiplier_default_bounds (h2 s.randomSeed i)
  have hb := defaultGem_bonus_le
    (selectGem defaultGemRewards ((h2 s.randomSeed i) >>> 8))
  have h1 : base * 1 ≤
      base * selectMultiplier defaultMultipliers defaultWeights (h2 s.randomSeed i) :=
    Nat.mul_le_mul_left base hm.1
  have h2m : base * selectMultiplier defaultMultipliers defaultWeights (h2 s.randomSeed i) ≤
      base * 50 :=
    Nat.mul_le_mul_left base hm.2
  simp only [tapStep]
  split_ifs <;> dsimp only <;> omega

/-- Batch reward bounds: `taps` iterations of the tap loop add at least
`taps * base` and at most `taps * (base * 50 + diamond bonus)`. -/
theorem runTaps_bounds (h2 : Nat → Nat → Nat) (base : Nat) :
    ∀ (n : Nat) (s : LoopState),
      s.totalReward + n * base ≤
        (runTaps h2 defaultGemRewards defaultMultipliers defaultWeights base n s).totalReward ∧
      (runTaps h2 defaultGemRewards defaultMultipliers defaultWeights base n s).totalReward ≤
        s.totalReward + n * (base * 50 + 2000 * 10 ^ 18) := by
  intro n
  induction n with
  | zero => intro s; simp [runTaps]
  | succ k ih =>
    intro s
    have hih := ih s
    have hstep := tapStep_bounds h2 base k
      (runTaps h2 defaultGemRewards defaultMultipliers defaultWeights base k s)
    simp only [runTaps]
    rw [Nat.succ_mul, Nat.succ_mul]
    omega

/-- Evaluation of `_executeTaps` when the per-block limit and the
`uint128` power bound hold: the call succeeds, caches the power, runs
the loop and posts the aggregate reward. -/
theorem executeTaps_eval (h2 : Nat → Nat → Nat) (g : GemType → GemReward)
    (mults weights : List Nat) (nft : MinerNFTState)
    (sender currentBlock taps randomSeed : Nat) (isCommitReveal : Bool)
    (player : PlayerData) (blockTapsCur : Nat)
    (hbudget : blockTapsCur + taps ≤ MAX_TAPS_PER_BLOCK)
    (hpow : assetPowerSum nft sender player.registeredMiners * (player.level + 1) ≤
      UINT128MAX) :
    executeTaps h2 g mults weights nft sender currentBlock taps randomSeed
      isCommitReveal player blockTapsCur =
      .ok
        ({ player with
            totalPower :=
              assetPowerSum nft sender player.registeredMiners * (player.level + 1)
            pendingRewards := player.pendingRewards +
              (runTaps h2 g mults weights
                (if isCommitReveal then
                  BASE_REWARD *
                    (assetPowerSum nft sender player.registeredMiners *
                      (player.level + 1) + 1) * 110 / 100
                else
                  BASE_REWARD *
                    (assetPowerSum nft sender player.registeredMiners *
                      (player.level + 1) + 1)) taps
                ⟨randomSeed, 0, player.criticalHits, player.tapsSinceCritical,
                  false⟩).totalReward
            totalTaps := (player.totalTaps + taps) % UINT256
            lastTapBlock := currentBlock
            criticalHits := (runTaps h2 g mults weights
                (if isCommitReveal then
                  BASE_REWARD *
                    (assetPowerSum nft sender player.registeredMiners *
                      (player.level + 1) + 1) * 110 / 100
                else
                  BASE_REWARD *
                    (assetPowerSum nft sender player.registeredMiners *
                      (player.level + 1) + 1)) taps
                ⟨randomSeed, 0, player.criticalHits, player.tapsSinceCritical,
                  false⟩).criticalHits
            tapsSinceCritical := (runTaps h2 g mults weights
                (if isCommitReveal then
                  BASE_REWARD *
                    (assetPowerSum nft sender player.registeredMiners *
                      (player.level + 1) + 1) * 110 / 100
                else
                  BASE_REWARD *
                    (assetPowerSum nft sender player.registeredMiners *
                      (player.level + 1) + 1)) taps
                ⟨randomSeed, 0, player.criticalHits, player.tapsSinceCritical,
                  false⟩).tapsSinceCritical },
          blockTapsCur + taps,
          (runTaps h2 g mults weights
            (if isCommitReveal then
              BASE_REWARD *
                (assetPowerSum nft sender player.registeredMiners *
                  (player.level + 1) + 1) * 110 / 100
            else
              BASE_REWARD *
                (assetPowerSum nft sender player.registeredMiners *
                  (player.level + 1) + 1)) taps
            ⟨randomSeed, 0, player.criticalHits, player.tapsSinceCritical,
              false⟩).totalReward) := by
  simp only [executeTaps, calculateAndCachePower]
  rw [if_neg (by omega), if_pos hpow]

/-- C7 witness: on the one-token registry, registering token 42
succeeds from a fresh player; the registered list [42] is
duplicate-free and within the cap; unregistering it restores the empty
list; a tap batch and a withdrawal leave a registered list untouched. -/
theorem claim_registered_miners_invariant_witness :
    exOk (registerMiner witnessNFT 1 42 defaultPlayer) = true ∧
    (({ defaultPlayer with registeredMiners := [42] } :
        PlayerData).registeredMiners.Nodup ∧
      ({ defaultPlayer with registeredMiners := [42] } :
        PlayerData).registeredMiners.length ≤ MAX_REGISTERED_MINERS) ∧
    (defaultPlayer.registeredMiners.Nodup ∧
      defaultPlayer.registeredMiners.length ≤ MAX_REGISTERED_MINERS) ∧
    (⟨0, 0, 20 * 10 ^ 18, 0, 1, 1, 5, 0, []⟩ :
      PlayerData).registeredMiners = defaultPlayer.registeredMiners ∧
    (⟨0, 0, 0, 5, 0, 0, 0, 0, []⟩ :
      PlayerData).registeredMiners = defaultPlayer.registeredMiners := by
  refine ⟨?_, ?_, ?_, ?_, ?_⟩
  · exact (claim_registered_miners_invariant witnessNFT 1 42 defaultPlayer
      defaultPlayer).1.mpr ⟨by decide, by decide, by decide⟩
  · exact (claim_registered_miners_invariant witnessNFT 1 42 defaultPlayer
      { defaultPlayer with registeredMiners := [42] }).2.1 (by decide) (by rfl)
  · exact (claim_registered_miners_invariant witnessNFT 1 42
      { defaultPlayer with registeredMiners := [42] } defaultPlayer).2.2.1
      (by decide) (by decide) (by rfl)
  · exact (claim_registered_miners_invariant witnessNFT 1 42 defaultPlayer
      defaultPlayer).2.2.2.1 (fun _ _ => 7) defaultGemRewards defaultMultipliers
      defaultWeights 5 1 0 false 0 ⟨0, 0, 20 * 10 ^ 18, 0, 1, 1, 5, 0, []⟩ 1
      (20 * 10 ^ 18) (by rfl)
  · exact (claim_registered_miners_invariant witnessNFT 1 42
      { defaultPlayer with pendingRewards := 5 } defaultPlayer).2.2.2.2 0
      ⟨0, 0, MAX_DAILY_MINT⟩ ⟨0, 5, MAX_DAILY_MINT⟩ ⟨0, 0, 0, 5, 0, 0, 0, 0, []⟩ 5
      (by rfl)

/-- C1 counterexample: a direct single tap by a fresh player (asset
power sum P = 0, level L = 0, so the claimed ceiling is
`BASE_REWARD * (P*(L+1)+1) * 1 * 50 = 500·10^18`) under a sub-seed
whose low byte rolls a critical hit with a gem and whose next byte
selects a diamond pays `2020·10^18`, above the claimed ceiling. -/
theorem claim_direct_tap_reward_counterexample :
    okReward (executeTaps (fun _ _ => 24400) defaultGemRewards defaultMultipliers
      defaultWeights emptyNFT 1 5 1 0 false defaultPlayer 0) = 2020 * 10 ^ 18 ∧
    ¬(okReward (executeTaps (fun _ _ => 24400) defaultGemRewards defaultMultipliers
        defaultWeights emptyNFT 1 5 1 0 false defaultPlayer 0) ≤
      BASE_REWARD * (0 * (0 + 1) + 1) * 1 * 50) := by
  decide

/-- C1 (amended): a direct tap call with a valid tap count, enough
per-block tap budget and in-range power succeeds; its total reward is
at least `BASE_REWARD*(P*(L+1)+1)*tapCount` and at most
`BASE_REWARD*(P*(L+1)+1)*tapCount*50 + 2000·10^18*tapCount` (the flat
gem-bonus term is forced: a critical tap that also drops a gem adds
the gem bonus on top of the multiplied reward); `totalTaps` increases
by exactly `tapCount`. -/
theorem claim_direct_tap_reward_bounds (h2 : Nat → Nat → Nat)
    (nft : MinerNFTState) (sender currentBlock taps randomSeed : Nat)
    (player : PlayerData) (blockTapsCur : Nat)
    (htaps : 1 ≤ taps ∧ taps ≤ MAX_TAPS_PER_CALL)
    (hbudget : blockTapsCur + taps ≤ MAX_TAPS_PER_BLOCK)
    (hpow : assetPowerSum nft sender player.registeredMiners * (player.level + 1) ≤
      UINT128MAX)
    (htt : player.totalTaps + taps < UINT256) :
    exOk (executeTaps h2 defaultGemRewards defaultMultipliers defaultWeights nft
      sender currentBlock taps randomSeed false player blockTapsCur) = true ∧
    BASE_REWARD *
        (assetPowerSum nft sender player.registeredMiners * (player.level + 1) + 1) *
        taps ≤
      okReward (executeTaps h2 defaultGemRewards defaultMultipliers defaultWeights nft
        sender currentBlock taps randomSeed false player blockTapsCur) ∧
    okReward (executeTaps h2 defaultGemRewards defaultMultipliers defaultWeights nft
        sender currentBlock taps randomSeed false player blockTapsCur) ≤
      BASE_REWARD *
          (assetPowerSum nft sender player.registeredMiners * (player.level + 1) + 1) *
          taps * 50 +
        2000 * 10 ^ 18 * taps ∧
    (okPlayer (executeTaps h2 defaultGemRewards defaultMultipliers defaultWeights nft
        sender currentBlock taps randomSeed false player blockTapsCur)
        player).totalTaps = player.totalTaps + taps := by
  have heval := executeTaps_eval h2 defaultGemRewards defaultMultipliers
    defaultWeights nft sender currentBlock taps randomSeed false player blockTapsCur
    hbudget hpow
  rw [heval]
  simp only [Bool.false_eq_true, if_false] at heval ⊢
  have hrb := runTaps_bounds h2
    (BASE_REWARD *
      (assetPowerSum nft sender player.registeredMiners * (player.level + 1) + 1))
    taps ⟨randomSeed, 0, player.criticalHits, player.tapsSinceCritical, false⟩
  dsimp only [exOk, okReward, okPlayer] at hrb ⊢
  refine ⟨rfl, ?_, ?_, ?_⟩
  · calc BASE_REWARD *
        (assetPowerSum nft sender player.registeredMiners * (player.level + 1) + 1) *
        taps =
        0 + taps * (BASE_REWARD *
          (assetPowerSum nft sender player.registeredMiners * (player.level + 1) + 1)) := by
          ring
      _ ≤ _ := hrb.1
  · calc _ ≤ 0 + taps * (BASE_REWARD *
          (assetPowerSum nft sender player.registeredMiners * (player.level + 1) + 1) *
          50 + 2000 * 10 ^ 18) := hrb.2
      _ = BASE_REWARD *
          (assetPowerSum nft sender player.registeredMiners * (player.level + 1) + 1) *
          taps * 50 + 2000 * 10 ^ 18 * taps := by ring
  · exact Nat.mod_eq_of_lt htt

/-- C1 witness: a fresh player, empty registry, one tap with every
sub-seed rolling a plain critical hit: the call succeeds and its
reward and tap count satisfy the amended bounds. -/
theorem claim_direct_tap_reward_bounds_witness :
    exOk (executeTaps (fun _ _ => 7) defaultGemRewards defaultMultipliers
      defaultWeights emptyNFT 1 5 1 0 false defaultPlayer 0) = true ∧
    BASE_REWARD *
        (assetPowerSum emptyNFT 1 defaultPlayer.registeredMiners *
          (defaultPlayer.level + 1) + 1) * 1 ≤
      okReward (executeTaps (fun _ _ => 7) defaultGemRewards defaultMultipliers
        defaultWeights emptyNFT 1 5 1 0 false defaultPlayer 0) ∧
    okReward (executeTaps (fun _ _ => 7) defaultGemRewards defaultMultipliers
        defaultWeights emptyNFT 1 5 1 0 false defaultPlayer 0) ≤
      BASE_REWARD *
          (assetPowerSum emptyNFT 1 defaultPlayer.registeredMiners *
            (defaultPlayer.level + 1) + 1) * 1 * 50 +
        2000 * 10 ^ 18 * 1 ∧
    (okPlayer (executeTaps (fun _ _ => 7) defaultGemRewards defaultMultipliers
        defaultWeights emptyNFT 1 5 1 0 false defaultPlayer 0)
        defaultPlayer).totalTaps = defaultPlayer.totalTaps + 1 :=
  claim_direct_tap_reward_bounds (fun _ _ => 7) emptyNFT 1 5 1 0 defaultPlayer 0
    (by decide) (by decide) (by decide) (by decide)

/-- C2 counterexample: a commit recorded at block 100 with matching
secret 5 / nonce 6 (commitment hash `Hc 1 5 6 10 = 22`), revealed at
block 101 — exactly `COMMIT_DELAY = COMMIT_REVEAL_BLOCKS = 1` periods
after the commit — reverts with the digest-unavailable error instead of
succeeding: the EVM gives no digest for the current block itself. -/
theorem claim_reveal_window_counterexample :
    ((fun (a s n t : Nat) => a + s + n + t) 1 5 6 10 = 22) ∧
    ((101 : Nat) = 100 + COMMIT_REVEAL_BLOCKS) ∧
    revealTap (fun a s n t => a + s + n + t) (fun _ _ _ _ => 0) (fun _ _ => 0)
      defaultGemRewards defaultMultipliers defaultWeights emptyNFT (fun n => n + 1)
      false 1 101 5 6 ⟨22, 100, 10, false⟩ defaultPlayer 0 =
      .error "Block hash not available" :=
  ⟨rfl, rfl, rfl⟩

/-- C2 (amended): for an unrevealed commitment with matching secret and
nonce, `revealTap` before `COMMIT_DELAY` periods have elapsed reverts
with the too-early error; at exactly `COMMIT_DELAY` periods it reverts
with the digest-unavailable error (the digest of the block at
`periodRecorded + COMMIT_DELAY` is the current block's, which the EVM
does not expose), so the earliest success is `COMMIT_DELAY + 1` periods
after the commit; more than `COMMIT_DELAY + MAX_REVEAL_DELAY` periods
after the commit it reverts with the digest-unavailable error, the
digest-availability check running before the upper-bound window
check. -/
theorem claim_reveal_window (Hc Hs : Nat → Nat → Nat → Nat → Nat)
    (h2 : Nat → Nat → Nat) (g : GemType → GemReward) (mults weights : List Nat)
    (nft : MinerNFTState) (digest : Nat → Nat) (sender secret nonce : Nat)
    (c : CommitData) (player : PlayerData) (blockTapsCur curE curL : Nat)
    (hbn : 0 < c.blockNumber) (hrev : c.revealed = false)
    (hE : curE < c.blockNumber + COMMIT_REVEAL_BLOCKS)
    (hL : c.blockNumber + COMMIT_REVEAL_BLOCKS + MAX_REVEAL_DELAY < curL)
    (hdig : digest (c.blockNumber + COMMIT_REVEAL_BLOCKS) ≠ 0)
    (hhash : Hc sender secret nonce c.taps = c.hash)
    (htaps : 0 < c.taps ∧ c.taps ≤ MAX_TAPS_PER_CALL)
    (hbudget : blockTapsCur + c.taps ≤ MAX_TAPS_PER_BLOCK)
    (hpow : assetPowerSum nft sender player.registeredMiners * (player.level + 1) ≤
      UINT128MAX) :
    revealTap Hc Hs h2 g mults weights nft digest false sender curE secret nonce
      c player blockTapsCur = .error "Too early" ∧
    revealTap Hc Hs h2 g mults weights nft digest false sender
      (c.blockNumber + COMMIT_REVEAL_BLOCKS) secret nonce c player blockTapsCur =
      .error "Block hash not available" ∧
    revealTap Hc Hs h2 g mults weights nft digest false sender curL secret nonce
      c player blockTapsCur = .error "Block hash not available" ∧
    exOk (revealTap Hc Hs h2 g mults weights nft digest false sender
      (c.blockNumber + COMMIT_REVEAL_BLOCKS + 1) secret nonce c player
      blockTapsCur) = true ∧
    (okCommit (revealTap Hc Hs h2 g mults weights nft digest false sender
      (c.blockNumber + COMMIT_REVEAL_BLOCKS + 1) secret nonce c player
      blockTapsCur) c).revealed = true := by
  have hmod : c.taps % UINT16 = c.taps := by
    have h20 := htaps.2
    simp only [MAX_TAPS_PER_CALL] at h20
    exact Nat.mod_eq_of_lt (by simp only [UINT16]; omega)
  have hCRB : COMMIT_REVEAL_BLOCKS = 1 := rfl
  have hMRD : MAX_REVEAL_DELAY = 256 := rfl
  have hL256 : c.blockNumber + COMMIT_REVEAL_BLOCKS + 256 < curL := by
    rw [hMRD] at hL
    exact hL
  have hbhE : blockhashAt digest (c.blockNumber + COMMIT_REVEAL_BLOCKS)
      (c.blockNumber + COMMIT_REVEAL_BLOCKS) = 0 := by
    simp only [blockhashAt]
    rw [if_neg (by omega)]
  have hbhL : blockhashAt digest curL
      (c.blockNumber + COMMIT_REVEAL_BLOCKS) = 0 := by
    simp only [blockhashAt]
    rw [if_neg (by omega)]
  have hbhS : blockhashAt digest (c.blockNumber + COMMIT_REVEAL_BLOCKS + 1)
      (c.blockNumber + COMMIT_REVEAL_BLOCKS) =
      digest (c.blockNumber + COMMIT_REVEAL_BLOCKS) := by
    simp only [blockhashAt]
    rw [if_pos ⟨by omega, by omega⟩]
  refine ⟨?_, ?_, ?_, ?_, ?_⟩
  · simp only [revealTap, Bool.false_eq_true, if_false]
    rw [if_neg (by omega), if_neg (by simp [hrev]), if_pos (by omega)]
  · simp only [revealTap, Bool.false_eq_true, if_false]
    rw [if_neg (by omega), if_neg (by simp [hrev]), if_neg (by omega),
      hbhE, if_pos rfl]
  · simp only [revealTap, Bool.false_eq_true, if_false]
    rw [if_neg (by omega), if_neg (by simp [hrev]), if_neg (by omega),
      hbhL, if_pos rfl]
  · simp only [revealTap, Bool.false_eq_true, if_false]
    rw [if_neg (by omega), if_neg (by simp [hrev]), if_neg (by omega),
      hbhS, if_neg hdig, if_neg (by simp only [hCRB, hMRD]; omega),
      if_neg (not_not_intro hhash), hmod,
      executeTaps_eval h2 g mults weights nft sender
        (c.blockNumber + COMMIT_REVEAL_BLOCKS + 1)
        c.taps (Hs (digest (c.blockNumber + COMMIT_REVEAL_BLOCKS)) secret nonce
          sender) true player blockTapsCur hbudget hpow]
    rfl
  · simp only [revealTap, Bool.false_eq_true, if_false]
    rw [if_neg (by omega), if_neg (by simp [hrev]), if_neg (by omega),
      hbhS, if_neg hdig, if_neg (by simp only [hCRB, hMRD]; omega),
      if_neg (not_not_intro hhash), hmod,
      executeTaps_eval h2 g mults weights nft sender
        (c.blockNumber + COMMIT_REVEAL_BLOCKS + 1)
        c.taps (Hs (digest (c.blockNumber + COMMIT_REVEAL_BLOCKS)) secret nonce
          sender) true player blockTapsCur hbudget hpow]
    rfl

/-- C2 witness: commit at block 100 with matching secret/nonce; reveal
at block 100 is too early, at 101 (exactly the delay) the digest is
unavailable, at 500 (past the window) the digest is unavailable, and at
102 the reveal succeeds and marks the commitment revealed. -/
theorem claim_reveal_window_witness :
    revealTap (fun a s n t => a + s + n + t) (fun _ _ _ _ => 0) (fun _ _ => 0)
      defaultGemRewards defaultMultipliers defaultWeights emptyNFT (fun n => n + 1)
      false 1 100 5 6 ⟨22, 100, 10, false⟩ defaultPlayer 0 = .error "Too early" ∧
    revealTap (fun a s n t => a + s + n + t) (fun _ _ _ _ => 0) (fun _ _ => 0)
      defaultGemRewards defaultMultipliers defaultWeights emptyNFT (fun n => n + 1)
      false 1 (100 + COMMIT_REVEAL_BLOCKS) 5 6 ⟨22, 100, 10, false⟩ defaultPlayer 0 =
      .error "Block hash not available" ∧
    revealTap (fun a s n t => a + s + n + t) (fun _ _ _ _ => 0) (fun _ _ => 0)
      defaultGemRewards defaultMultipliers defaultWeights emptyNFT (fun n => n + 1)
      false 1 500 5 6 ⟨22, 100, 10, false⟩ defaultPlayer 0 =
      .error "Block hash not available" ∧
    exOk (revealTap (fun a s n t => a + s + n + t) (fun _ _ _ _ => 0) (fun _ _ => 0)
      defaultGemRewards defaultMultipliers defaultWeights emptyNFT (fun n => n + 1)
      false 1 (100 + COMMIT_REVEAL_BLOCKS + 1) 5 6 ⟨22, 100, 10, false⟩
      defaultPlayer 0) = true ∧
    (okCommit (revealTap (fun a s n t => a + s + n + t) (fun _ _ _ _ => 0)
      (fun _ _ => 0) defaultGemRewards defaultMultipliers defaultWeights emptyNFT
      (fun n => n + 1) false 1 (100 + COMMIT_REVEAL_BLOCKS + 1) 5 6
      ⟨22, 100, 10, false⟩ defaultPlayer 0) ⟨22, 100, 10, false⟩).revealed = true := by
  have h := claim_reveal_window (fun a s n t => a + s + n + t) (fun _ _ _ _ => 0)
    (fun _ _ => 0) defaultGemRewards defaultMultipliers defaultWeights emptyNFT
    (fun n => n + 1) 1 5 6 ⟨22, 100, 10, false⟩ defaultPlayer 0 100 500
    (by decide) rfl (by decide) (by decide) (by decide) rfl (by decide) (by decide)
    (by decide)
  exact h

/-- Reward posted by one critical tap: the batch base times the
selected multiplier, plus — exactly when the same low bits
`seed % 100` also roll under 5 and the gem selected from `seed >>> 8`
is not NONE — the flat gem bonus. -/
theorem tapStep_crit_reward (h2 : Nat → Nat → Nat) (g : GemType → GemReward)
    (mults weights : List Nat) (base i : Nat) (s : LoopState)
    (hcrit : (h2 s.randomSeed i) % 100 <
      CRITICAL_BASE_CHANCE + calculatePityBonus s.tapsSinceCritical) :
    (tapStep h2 g mults weights base i s).totalReward =
      s.totalReward +
        (base * selectMultiplier mults weights (h2 s.randomSeed i) +
          (if (h2 s.randomSeed i) % 100 < 5 ∧
              selectGem g ((h2 s.randomSeed i) >>> 8) ≠ GemType.NONE then
            (g (selectGem g ((h2 s.randomSeed i) >>> 8))).bonus
          else 0)) := by
  simp only [tapStep]
  rw [if_pos hcrit]
  by_cases h5 : (h2 s.randomSeed i) % 100 < 5
  · rw [if_pos h5]
    by_cases hg : selectGem g ((h2 s.randomSeed i) >>> 8) ≠ GemType.NONE
    · rw [if_pos hg, if_pos ⟨h5, hg⟩]
    · rw [if_neg hg, if_neg (by tauto)]
      dsimp only
      omega
  · rw [if_neg h5, if_neg (by tauto)]
    dsimp only
    omega

/-- C3 counterexample: sub-seed 306 rolls a critical hit
(`306 % 100 = 6 < 10`); the bits the claim says decide the gem drop
satisfy `(306 >>> 8) % 100 = 1 < 5`, yet the executed tap pays exactly
`BASE_REWARD * 2` with no gem bonus, because the code decides the drop
by `306 % 100 < 5`, which fails. -/
theorem claim_gem_roll_bits_counterexample :
    ((306 : Nat) % 100 < CRITICAL_BASE_CHANCE + calculatePityBonus 0) ∧
    ((306 : Nat) >>> 8) % 100 < 5 ∧
    ¬((306 : Nat) % 100 < 5) ∧
    okReward (executeTaps (fun _ _ => 306) defaultGemRewards defaultMultipliers
      defaultWeights emptyNFT 1 5 1 0 false defaultPlayer 0) = BASE_REWARD * 2 := by
  decide

/-- C3 (amended): within one tap, the roll deciding whether a gem drops
on a critical hit reads the same bits as the criticality roll — the gem
drops iff `seed % 100 < 5`, the very expression compared against the
critical chance — and only the selection of which gem reads the
distinct bit range `(seed >>> 8) % 100`. -/
theorem claim_gem_roll_bits (h2 : Nat → Nat → Nat) (g : GemType → GemReward)
    (mults weights : List Nat) (base i : Nat) (s : LoopState)
    (hcrit : (h2 s.randomSeed i) % 100 <
      CRITICAL_BASE_CHANCE + calculatePityBonus s.tapsSinceCritical) :
    (tapStep h2 g mults weights base i s).totalReward =
      s.totalReward + base * selectMultiplier mults weights (h2 s.randomSeed i) +
        (if (h2 s.randomSeed i) % 100 < 5 ∧
            selectGem g ((h2 s.randomSeed i) >>> 8) ≠ GemType.NONE then
          (g (selectGem g ((h2 s.randomSeed i) >>> 8))).bonus
        else 0) := by
  rw [tapStep_crit_reward h2 g mults weights base i s hcrit, Nat.add_assoc]

/-- C3 witness: at sub-seed 24400 (critical, gem roll under 5, diamond
from the high bits) the per-tap reward equation holds. -/
theorem claim_gem_roll_bits_witness :
    (tapStep (fun _ _ => 24400) defaultGemRewards defaultMultipliers defaultWeights
      BASE_REWARD 0 ⟨0, 0, 0, 0, false⟩).totalReward =
      (⟨0, 0, 0, 0, false⟩ : LoopState).totalReward +
        BASE_REWARD * selectMultiplier defaultMultipliers defaultWeights
          ((fun _ _ => 24400 : Nat → Nat → Nat) 0 0) +
        (if ((fun _ _ => 24400 : Nat → Nat → Nat) 0 0) % 100 < 5 ∧
            selectGem defaultGemRewards
              (((fun _ _ => 24400 : Nat → Nat → Nat) 0 0) >>> 8) ≠ GemType.NONE then
          (defaultGemRewards (selectGem defaultGemRewards
            (((fun _ _ => 24400 : Nat → Nat → Nat) 0 0) >>> 8))).bonus
        else 0) :=
  claim_gem_roll_bits (fun _ _ => 24400) defaultGemRewards defaultMultipliers
    defaultWeights BASE_REWARD 0 ⟨0, 0, 0, 0, false⟩ (by decide)

/-- C10: on the verified (commit-reveal) path, a single critical tap
that also drops a gem pays the 110/100-scaled (truncating) batch base
times the selected multiplier, plus the gem bonus as a flat addend:
the bonus is neither multiplied by the critical multiplier nor scaled
by the 10% commit-reveal bonus. -/
theorem claim_gem_bonus_flat (h2 : Nat → Nat → Nat) (g : GemType → GemReward)
    (mults weights : List Nat) (nft : MinerNFTState)
    (sender currentBlock randomSeed : Nat) (player : PlayerData)
    (blockTapsCur : Nat)
    (hbudget : blockTapsCur + 1 ≤ MAX_TAPS_PER_BLOCK)
    (hpow : assetPowerSum nft sender player.registeredMiners * (player.level + 1) ≤
      UINT128MAX)
    (hcrit : (h2 randomSeed 0) % 100 <
      CRITICAL_BASE_CHANCE + calculatePityBonus player.tapsSinceCritical)
    (hgem : (h2 randomSeed 0) % 100 < 5)
    (hne : selectGem g ((h2 randomSeed 0) >>> 8) ≠ GemType.NONE) :
    okReward (executeTaps h2 g mults weights nft sender currentBlock 1 randomSeed
      true player blockTapsCur) =
      BASE_REWARD * (assetPowerSum nft sender player.registeredMiners *
          (player.level + 1) + 1) * 110 / 100 *
        selectMultiplier mults weights (h2 randomSeed 0) +
      (g (selectGem g ((h2 randomSeed 0) >>> 8))).bonus := by
  rw [executeTaps_eval h2 g mults weights nft sender currentBlock 1 randomSeed
    true player blockTapsCur hbudget hpow]
  dsimp only [okReward]
  simp only [runTaps, if_true]
  rw [tapStep_crit_reward h2 g mults weights _ 0
    ⟨randomSeed, 0, player.criticalHits, player.tapsSinceCritical, false⟩ hcrit]
  rw [if_pos (show (h2 randomSeed 0) % 100 < 5 ∧
    selectGem g ((h2 randomSeed 0) >>> 8) ≠ GemType.NONE from ⟨hgem, hne⟩)]
  dsimp only
  omega

/-- C10 witness: sub-seed 24400 on the verified path with a fresh
player: the reward equals the scaled base times the multiplier plus
the flat diamond bonus. -/
theorem claim_gem_bonus_flat_witness :
    okReward (executeTaps (fun _ _ => 24400) defaultGemRewards defaultMultipliers
      defaultWeights emptyNFT 1 5 1 0 true defaultPlayer 0) =
      BASE_REWARD * (assetPowerSum emptyNFT 1 defaultPlayer.registeredMiners *
          (defaultPlayer.level + 1) + 1) * 110 / 100 *
        selectMultiplier defaultMultipliers defaultWeights
          ((fun _ _ => 24400 : Nat → Nat → Nat) 0 0) +
      (defaultGemRewards (selectGem defaultGemRewards
        (((fun _ _ => 24400 : Nat → Nat → Nat) 0 0) >>> 8))).bonus :=
  claim_gem_bonus_flat (fun _ _ => 24400) defaultGemRewards defaultMultipliers
    defaultWeights emptyNFT 1 5 0 defaultPlayer 0 (by decide) (by decide)
    (by decide) (by decide) (by decide)

end MinerGame
